import Mathlib

/-!
Shallow embedding of the direct-client experiments repository
(`src/claude-direct`): the Direct Client request construction
(`index.ts`), the stateless tool-use loop (`tool-loop.ts`), the traffic
recorder and log comparison (`testing/traffic-capture` module) and the
benchmark harness (`testing/benchmark.ts`).

Conventions of the embedding:
* Network effects are made explicit: a function that performs `fetch`
  takes the upstream outcome as an argument and returns the list of
  requests it issued, so that "how many requests" and "with which
  headers" are provable facts.
* JavaScript truthiness defaulting (`x || d`) is modelled by `jsOrNat` /
  `jsOrStr`, which keep the default when the value is absent, `0` or `""`.
* Durations are rationals (JS numbers used only through `+ - * /`).
-/

/-- One content segment of an API message, as consumed by `tool-loop.ts`
(`TextBlock`, `ToolUseBlock`, `ToolResultBlock`); `other` stands for any
further block kind (e.g. image blocks), which every consumption site in
the source ignores.  A tool input is kept as an opaque string. -/
inductive CBlock where
  | text (text : String)
  | toolUse (id : String) (name : String) (input : String)
  | toolResult (tool_use_id : String) (content : String) (is_error : Bool)
  | other
deriving DecidableEq, Repr

/-- Token usage of one API response (`usage.input_tokens` / `usage.output_tokens`). -/
structure Usage where
  input_tokens : Nat
  output_tokens : Nat
deriving DecidableEq, Repr

/-- A message payload: plain text or a list of content blocks
(`content: string | ContentBlock[]`). -/
inductive MContent where
  | str (s : String)
  | blocks (bs : List CBlock)
deriving DecidableEq, Repr

/-- One transcript entry (`Message` in `index.ts` / `tool-loop.ts`). -/
structure Message where
  role : String
  content : MContent
deriving DecidableEq, Repr

/-- JS `v || old` for numbers reached through optional chaining:
`none` and `0` are falsy. -/
def jsOrNat (v : Option Nat) (old : Nat) : Nat :=
  match v with
  | some n => if n = 0 then old else n
  | none => old

/-- JS `v || old` for strings reached through optional chaining:
`none` and `""` are falsy. -/
def jsOrStr (v : Option String) (old : String) : String :=
  match v with
  | some s => if s = "" then old else s
  | none => old

/- ### Direct Client (`src/claude-direct/index.ts`) -/

def API_BASE : String := "https://api.anthropic.com"

def ANTHROPIC_VERSION : String := "2023-06-01"

def CLI_VERSION : String := "2.1.29"

def SDK_VERSION : String := "0.2.29"

/-- `index.ts` lines 69-74: the comma-joined beta capability identifiers
(OAuth support first). -/
def BETA_FLAGS : String :=
  String.intercalate ","
    ["oauth-2025-04-20",
     "interleaved-thinking-2025-05-14",
     "context-management-2025-06-27",
     "prompt-caching-scope-2026-01-05"]

/-- The client configuration after the constructor has filled every
default (`this.config`): only the fields the embedded operations read. -/
structure ClaudeDirectConfig where
  oauthToken : String
  model : String
  deviceId : String
  sessionId : String
deriving DecidableEq, Repr

/-- `ClaudeDirect.getHeaders` (`index.ts` lines 116-127), as the ordered
key/value list of the header object literal. -/
def getHeaders (cfg : ClaudeDirectConfig) : List (String × String) :=
  [("Content-Type", "application/json"),
   ("Accept", "application/json"),
   ("Authorization", "Bearer " ++ cfg.oauthToken),
   ("anthropic-version", ANTHROPIC_VERSION),
   ("anthropic-beta", BETA_FLAGS),
   ("anthropic-dangerous-direct-browser-access", "true"),
   ("x-app", "cli"),
   ("User-Agent",
     "claude-cli/" ++ CLI_VERSION ++ " (external, cli, agent-sdk/" ++ SDK_VERSION ++ ")")]

/-- JS object spread `{...hs, k: v}`: the existing key keeps its position
but takes the new value; a fresh key is appended. -/
def setHeader (hs : List (String × String)) (k v : String) : List (String × String) :=
  if hs.any (fun kv => kv.1 = k) then
    hs.map (fun kv => if kv.1 = k then (k, v) else kv)
  else
    hs ++ [(k, v)]

/-- A tool definition (name, description, JSON schema kept opaque). -/
structure ToolDefinition where
  name : String
  description : String
  input_schema : String
deriving DecidableEq, Repr

/-- The caller-facing options of `query` / `queryStream`.  `tools = []`
stands for an absent tools array (the body includes tools only when the
array is present and non-empty, which coincide under this encoding). -/
structure QueryOptions where
  messages : List Message
  systemPrompt : Option String
  maxTokens : Option Nat
  tools : List ToolDefinition
deriving Repr

/-- The JSON request body built by `query` / `queryStream`
(`index.ts` lines 221-240 and 288-300). -/
structure RequestBody where
  model : String
  max_tokens : Nat
  messages : List Message
  system : Option String
  tools : Option (List ToolDefinition)
  stream : Bool
  user_id : String
deriving Repr

/-- `metadata.user_id` (`index.ts` line 226). -/
def metadataUserId (cfg : ClaudeDirectConfig) : String :=
  "user_" ++ cfg.deviceId ++ "_session_" ++ cfg.sessionId

/-- `if (options.systemPrompt) body.system = options.systemPrompt`:
the field is present exactly when the prompt is a truthy string. -/
def systemField (sp : Option String) : Option String :=
  match sp with
  | some s => if s = "" then none else some s
  | none => none

/-- Body of the single-shot `query` (stream flag absent, tools included
when non-empty). -/
def queryBody (cfg : ClaudeDirectConfig) (opts : QueryOptions) : RequestBody :=
  { model := cfg.model
    max_tokens := jsOrNat opts.maxTokens 4096
    messages := opts.messages
    system := systemField opts.systemPrompt
    tools := if opts.tools.length > 0 then some opts.tools else none
    stream := false
    user_id := metadataUserId cfg }

/-- Body of `queryStream` (`index.ts` lines 288-300): always `stream:
true`, never a tools field. -/
def queryStreamBody (cfg : ClaudeDirectConfig) (opts : QueryOptions) : RequestBody :=
  { model := cfg.model
    max_tokens := jsOrNat opts.maxTokens 4096
    messages := opts.messages
    system := systemField opts.systemPrompt
    tools := none
    stream := true
    user_id := metadataUserId cfg }

/-- An outgoing HTTP request as the embedding records it. -/
structure HttpRequest where
  method : String
  url : String
  headers : List (String × String)
  body : RequestBody
deriving Repr

/-- The parsed JSON body of a successful inference response
(`content`, `usage`, `model`, `stop_reason`). -/
structure ApiResponse where
  content : List CBlock
  usage : Option Usage
  model : String
  stop_reason : String
deriving DecidableEq, Repr

/-- The raw HTTP response of the inference call: status, the body as text
(read by the error path), and the parsed JSON (read by the success path). -/
structure HttpResponse where
  status : Nat
  bodyText : String
  json : ApiResponse
deriving DecidableEq, Repr

/-- `Response.ok` of the fetch API: status in the 200-299 range. -/
def responseOk (r : HttpResponse) : Bool :=
  200 ≤ r.status && r.status < 300

/-- `QueryResult` of `index.ts`. -/
structure QueryResult where
  content : String
  inputTokens : Nat
  outputTokens : Nat
  model : String
  stopReason : String
deriving DecidableEq, Repr

/-- `data.content?.[0]?.text`: the text of the first content block, when
that block is a text block. -/
def firstBlockText (bs : List CBlock) : Option String :=
  match bs.head? with
  | some (CBlock.text t) => some t
  | _ => none

/-- The message of the error thrown on a non-success status
(`index.ts` lines 249-252 and 311-314). -/
def inferenceFailMsg (status : Nat) (bodyText : String) : String :=
  "Inference failed: " ++ toString status ++ " " ++ bodyText

/-- `ClaudeDirect.query` (`index.ts` lines 207-274), minimal mode (the
default; the full-mode feature-flag and quota side calls are skipped).
The upstream response is the argument `res`; the returned list holds the
requests the call issues - exactly the one inference POST, whatever the
response (no retry).  Telemetry is fire-and-forget and affects nothing
the caller sees. -/
def ClaudeDirect.query (cfg : ClaudeDirectConfig) (opts : QueryOptions)
    (res : HttpResponse) : List HttpRequest × Except String QueryResult :=
  let req : HttpRequest :=
    { method := "POST"
      url := API_BASE ++ "/v1/messages?beta=true"
      headers := getHeaders cfg
      body := queryBody cfg opts }
  if responseOk res then
    ([req], Except.ok
      { content := jsOrStr (firstBlockText res.json.content) ""
        inputTokens := jsOrNat (res.json.usage.map Usage.input_tokens) 0
        outputTokens := jsOrNat (res.json.usage.map Usage.output_tokens) 0
        model := res.json.model
        stopReason := res.json.stop_reason })
  else
    ([req], Except.error (inferenceFailMsg res.status res.bodyText))

/-- One parsed `data:` event of the SSE stream, with exactly the fields
the consumer in `queryStream` reads; `otherEvent` covers every other
event shape (skipped). -/
inductive StreamEvent where
  | content_block_delta (text : Option String)
  | message_delta (stop_reason : Option String) (output_tokens : Option Nat)
  | message_start (model : Option String) (input_tokens : Option Nat)
  | otherEvent
deriving Repr

/-- The accumulator of the streaming read loop (`index.ts` lines 320-325). -/
structure StreamState where
  content : String
  inputTokens : Nat
  outputTokens : Nat
  model : String
  stopReason : String
deriving DecidableEq, Repr

/-- One iteration of the event dispatch (`index.ts` lines 343-352).  A
delta with empty text is falsy in JS and appends nothing; `message_delta`
and `message_start` keep the old value when the new one is falsy. -/
def processEvent (st : StreamState) (e : StreamEvent) : StreamState :=
  match e with
  | StreamEvent.content_block_delta t =>
      match t with
      | some s => if s = "" then st else { st with content := st.content ++ s }
      | none => st
  | StreamEvent.message_delta sr ot =>
      { st with stopReason := jsOrStr sr st.stopReason
                outputTokens := jsOrNat ot st.outputTokens }
  | StreamEvent.message_start m it =>
      { st with model := jsOrStr m st.model
                inputTokens := jsOrNat it st.inputTokens }
  | StreamEvent.otherEvent => st

/-- `ClaudeDirect.queryStream` (`index.ts` lines 279-373), minimal mode.
`events` is the parsed event sequence of the response stream; on a
non-success status the same inference failure is raised before any
streaming, and again exactly one request is issued. -/
def ClaudeDirect.queryStream (cfg : ClaudeDirectConfig) (opts : QueryOptions)
    (res : HttpResponse) (events : List StreamEvent)
    : List HttpRequest × Except String QueryResult :=
  let req : HttpRequest :=
    { method := "POST"
      url := API_BASE ++ "/v1/messages?beta=true"
      headers := setHeader (getHeaders cfg) "Accept" "text/event-stream"
      body := queryStreamBody cfg opts }
  if responseOk res then
    let st := events.foldl processEvent
      { content := "", inputTokens := 0, outputTokens := 0
        model := cfg.model, stopReason := "" }
    ([req], Except.ok
      { content := st.content
        inputTokens := st.inputTokens
        outputTokens := st.outputTokens
        model := st.model
        stopReason := st.stopReason })
  else
    ([req], Except.error (inferenceFailMsg res.status res.bodyText))

/-- The canonical SSE encoding of a single-shot response body: the same
content and usage carried as `message_start`, one text delta per text
block, and a closing `message_delta` (the recognised event shapes of
spec section 6).  "The upstream responses carry the same content and
usage" is formalised as: the stream's events are `eventsOf` of the
single-shot body.  `textDeltaOf` encodes one content block as its text
delta (non-text blocks yield no text delta). -/
def textDeltaOf (b : CBlock) : Option StreamEvent :=
  match b with
  | CBlock.text t => some (StreamEvent.content_block_delta (some t))
  | _ => none

/-- The event sequence of the canonical SSE encoding, see `textDeltaOf`. -/
def eventsOf (r : ApiResponse) : List StreamEvent :=
  StreamEvent.message_start (some r.model) (r.usage.map Usage.input_tokens)
    :: r.content.filterMap textDeltaOf
    ++ [StreamEvent.message_delta (some r.stop_reason) (r.usage.map Usage.output_tokens)]

/-- The aggregated text a result carries, `none` on error. -/
def exceptContent (e : Except String QueryResult) : Option String :=
  match e with
  | Except.ok q => some q.content
  | Except.error _ => none

/- ### Tool-Use Loop Engine (`src/claude-direct/tool-loop.ts`) -/

/-- A tool handler (`ToolHandler`): maps the call input to a textual
result; `Except.error m` stands for the handler throwing an error whose
`message` is `m`. -/
def ToolHandler : Type := String → Except String String

/-- The `toolHandlers` record: lookup by tool name. -/
def Handlers : Type := String → Option ToolHandler

/-- One recorded tool invocation (`toolCalls` entries). -/
structure ToolCall where
  name : String
  input : String
  result : String
deriving DecidableEq, Repr

/-- The body of the per-tool-use iteration (`tool-loop.ts` lines
136-158): missing handler or a throwing handler becomes an error-flagged
result, a normal return a plain result.  Returns the `tool_result` block
pushed to `toolResults` and the entry pushed to `toolCalls`. -/
def execToolUse (toolHandlers : Handlers) (id name input : String) :
    CBlock × ToolCall :=
  match toolHandlers name with
  | none =>
      let result := "Error: Unknown tool \"" ++ name ++ "\""
      (CBlock.toolResult id result true, { name := name, input := input, result := result })
  | some handler =>
      match handler input with
      | Except.ok result =>
          (CBlock.toolResult id result false, { name := name, input := input, result := result })
      | Except.error m =>
          let result := "Error: " ++ m
          (CBlock.toolResult id result true, { name := name, input := input, result := result })

/-- Whether a block is a `tool_use` block. -/
def isToolUseB (b : CBlock) : Bool :=
  match b with
  | CBlock.toolUse _ _ _ => true
  | _ => false

/-- Whether a block is a `tool_result` block. -/
def isToolResultB (b : CBlock) : Bool :=
  match b with
  | CBlock.toolResult _ _ _ => true
  | _ => false

/-- The `toolResults` array built by the loop over the reply's `tool_use`
blocks (`tool-loop.ts` lines 129-158), in reply order. -/
def toolResultsOf (toolHandlers : Handlers) : List CBlock → List CBlock
  | [] => []
  | CBlock.toolUse id name input :: rest =>
      (execToolUse toolHandlers id name input).1 :: toolResultsOf toolHandlers rest
  | _ :: rest => toolResultsOf toolHandlers rest

/-- The `toolCalls` entries recorded by the same loop (lines 160-164),
in reply order. -/
def toolCallsOf (toolHandlers : Handlers) : List CBlock → List ToolCall
  | [] => []
  | CBlock.toolUse id name input :: rest =>
      (execToolUse toolHandlers id name input).2 :: toolCallsOf toolHandlers rest
  | _ :: rest => toolCallsOf toolHandlers rest

/-- The parsed body `queryRaw` hands to the loop: content blocks, usage
and stop reason. -/
structure RawResponse where
  content : List CBlock
  usage : Option Usage
  stop_reason : String
deriving Repr

/-- The oracle standing for `client.queryRaw`: the response of the n-th
inference call of the loop (0-based), `Except.error` when that call
throws (the client-level inference failure). -/
def Oracle : Type := Nat → Except String RawResponse

/-- `ToolLoopResult` of `tool-loop.ts`. -/
structure ToolLoopResult where
  content : String
  turns : Nat
  totalInputTokens : Nat
  totalOutputTokens : Nat
  toolCalls : List ToolCall
deriving DecidableEq, Repr

/-- `finalContent` extraction on `end_turn` (`tool-loop.ts` lines
120-123): the text blocks of the final reply joined with newlines. -/
def finalText (bs : List CBlock) : String :=
  String.intercalate "\n"
    ((bs.filter (fun b => match b with | CBlock.text _ => true | _ => false)).map
      (fun b => match b with | CBlock.text t => t | _ => ""))

/-- The `while (turns < maxTurns)` loop of `executeToolLoop`
(`tool-loop.ts` lines 97-181), with the remaining budget as fuel and the
mutable locals as explicit state.  Each iteration consumes one oracle
response (a throwing `queryRaw` aborts the loop and propagates), appends
the assistant reply, and either finishes (`end_turn`), appends the tool
results as a user message and continues (`tool_use`), or warns and
finishes (any other stop reason).  The transcript is returned alongside
the result so that its evolution can be stated. -/
def toolLoopGo (queryRaw : Oracle) (toolHandlers : Handlers) :
    Nat → Nat → List Message → Nat → Nat → List ToolCall →
    List Message × Except String ToolLoopResult
  | 0, turns, messages, inTok, outTok, toolCalls =>
      (messages, Except.ok
        { content := "", turns := turns, totalInputTokens := inTok
          totalOutputTokens := outTok, toolCalls := toolCalls })
  | fuel + 1, turns, messages, inTok, outTok, toolCalls =>
      match queryRaw turns with
      | Except.error e => (messages, Except.error e)
      | Except.ok response =>
        let inTok' := inTok + (response.usage.map Usage.input_tokens).getD 0
        let outTok' := outTok + (response.usage.map Usage.output_tokens).getD 0
        let messages' := messages ++ [{ role := "assistant", content := MContent.blocks response.content }]
        if response.stop_reason = "end_turn" then
          (messages', Except.ok
            { content := finalText response.content, turns := turns + 1
              totalInputTokens := inTok', totalOutputTokens := outTok'
              toolCalls := toolCalls })
        else if response.stop_reason = "tool_use" then
          toolLoopGo queryRaw toolHandlers fuel (turns + 1)
            (messages' ++ [{ role := "user",
                             content := MContent.blocks (toolResultsOf toolHandlers response.content) }])
            inTok' outTok' (toolCalls ++ toolCallsOf toolHandlers response.content)
        else
          (messages', Except.ok
            { content := "", turns := turns + 1
              totalInputTokens := inTok', totalOutputTokens := outTok'
              toolCalls := toolCalls })

/-- `executeToolLoop` together with its final private transcript (the
source keeps the transcript internal; exposing it is what lets the
transcript invariants be stated). -/
def executeToolLoopFull (queryRaw : Oracle) (toolHandlers : Handlers)
    (maxTurns : Nat) (messages : List Message) :
    List Message × Except String ToolLoopResult :=
  toolLoopGo queryRaw toolHandlers maxTurns 0 messages 0 0 []

/-- `executeToolLoop` (`tool-loop.ts` lines 75-190): the caller-facing
result. -/
def executeToolLoop (queryRaw : Oracle) (toolHandlers : Handlers)
    (maxTurns : Nat) (messages : List Message) : Except String ToolLoopResult :=
  (executeToolLoopFull queryRaw toolHandlers maxTurns messages).2

/-- `executeToolLoop` against an explicit store of message arrays, making
the aliasing of line 89 visible: the caller's array lives at index `ref`
of `store`; `JSON.parse(JSON.stringify(options.messages))` allocates a
fresh cell holding an equal list, and the loop grows only that cell. -/
def executeToolLoopStore (queryRaw : Oracle) (toolHandlers : Handlers)
    (maxTurns : Nat) (store : List (List Message)) (ref : Nat) :
    List (List Message) × Except String ToolLoopResult :=
  let callerMessages := store.getD ref []
  let messagesRef := store.length
  let store1 := store ++ [callerMessages]
  let out := executeToolLoopFull queryRaw toolHandlers maxTurns callerMessages
  (store1.set messagesRef out.1, out.2)

/- ### Traffic Recorder (`src/claude-direct/testing`, traffic-capture module) -/

/-- One recorded HTTP exchange (`TrafficEntry`).  The request body is
kept as an opaque string; `status` and `responseHeaders` are set on the
success path only, `error` on the failure path only. -/
structure TrafficEntry where
  timestamp : Nat
  method : String
  url : String
  requestHeaders : List (String × String)
  requestBody : Option String
  status : Option Nat
  responseHeaders : Option (List (String × String))
  durationMs : Nat
  error : Option String
deriving DecidableEq, Repr

/-- What the recorder reads off the `fetch` response: status and headers. -/
structure FetchResponse where
  status : Nat
  headers : List (String × String)
deriving DecidableEq, Repr

/-- `options?.urlFilter` test: an absent filter lets every URL through. -/
def filterPasses (urlFilter : Option (String → Bool)) (url : String) : Bool :=
  match urlFilter with
  | some f => f url
  | none => true

/-- The intercepting `fetch` installed by `enableTrafficLogging`
(traffic-capture module, lines 199-268), for one call: the underlying
call's outcome is `outcome` (`Except.error e` when `originalFetch`
rejects with message `e`), `elapsed` the measured duration, `log` the
log before the call.  A call failing the URL filter bypasses recording;
otherwise the finalized entry is appended on both paths and the outcome
is returned (re-thrown) unchanged. -/
def loggedFetch (urlFilter : Option (String → Bool)) (method url : String)
    (requestHeaders : List (String × String)) (requestBody : Option String)
    (timestamp elapsed : Nat) (outcome : Except String FetchResponse)
    (log : List TrafficEntry) : Except String FetchResponse × List TrafficEntry :=
  if !(filterPasses urlFilter url) then
    (outcome, log)
  else
    match outcome with
    | Except.ok response =>
        (Except.ok response, log ++
          [{ timestamp := timestamp, method := method, url := url
             requestHeaders := requestHeaders, requestBody := requestBody
             status := some response.status
             responseHeaders := some response.headers
             durationMs := elapsed, error := none }])
    | Except.error e =>
        (Except.error e, log ++
          [{ timestamp := timestamp, method := method, url := url
             requestHeaders := requestHeaders, requestBody := requestBody
             status := none, responseHeaders := none
             durationMs := elapsed, error := some e }])

/-- `s.toLowerCase()` on ASCII header names, over the character list. -/
def lowerAscii (s : String) : String :=
  String.mk (s.data.map Char.toLower)

/-- Whether `pat` is an initial segment of `cs`. -/
def startsWithCL : List Char → List Char → Bool
  | [], _ => true
  | _ :: _, [] => false
  | p :: ps, c :: cs => p = c && startsWithCL ps cs

/-- The characters after the first occurrence of `pat`, `none` when
`pat` never occurs. -/
def dropThrough (pat : List Char) : List Char → Option (List Char)
  | [] => none
  | c :: rest =>
      if startsWithCL pat (c :: rest) then some ((c :: rest).drop pat.length)
      else dropThrough pat rest

/-- The suffix starting at the first `/`, `[]` when there is none. -/
def fromFirstSlash : List Char → List Char
  | [] => []
  | c :: cs => if c = '/' then c :: cs else fromFirstSlash cs

/-- `new URL(url).pathname` for an absolute http(s) URL: the part from
the first `/` after the scheme and host up to a query or fragment, `/`
when there is none. -/
def pathname (url : String) : String :=
  let afterScheme :=
    match dropThrough ("://".data) url.data with
    | some r => r
    | none => url.data
  let path :=
    match fromFirstSlash afterScheme with
    | [] => ['/']
    | l => l
  String.mk (path.takeWhile (fun c => c ≠ '?' && c ≠ '#'))

/-- JS object key lookup `e.requestHeaders[k]` (keys unique, exact
comparison): `none` stands for `undefined`. -/
def lookupHeader (hs : List (String × String)) (k : String) : Option String :=
  (hs.find? (fun kv => kv.1 = k)).map (fun kv => kv.2)

/-- A default entry (never read: positions below `minLen` are in range). -/
def emptyEntry : TrafficEntry :=
  { timestamp := 0, method := "", url := "", requestHeaders := []
    requestBody := none, status := none, responseHeaders := none
    durationMs := 0, error := none }

/-- The difference strings `compareTrafficLogs` collects at position `i`
(traffic-capture module, lines 355-372): a method/path line, then one
line per non-ignored request header of the first log's entry whose value
in the second differs. -/
def compareAt (ignore : List String) (i : Nat) (e1 e2 : TrafficEntry) : List String :=
  let methodPath :=
    if e1.method ≠ e2.method ∨ pathname e1.url ≠ pathname e2.url then
      ["Request " ++ toString i ++ ": " ++ e1.method ++ " " ++ pathname e1.url
        ++ " vs " ++ e2.method ++ " " ++ pathname e2.url]
    else []
  let h1 := e1.requestHeaders.filter (fun kv => !(ignore.contains (lowerAscii kv.1)))
  let headerDiffs := h1.filterMap (fun kv =>
    let v2 := lookupHeader e2.requestHeaders kv.1
    if some kv.2 ≠ v2 then
      some ("Request " ++ toString i ++ " header '" ++ kv.1 ++ "': '" ++ kv.2
        ++ "' vs '" ++ v2.getD "undefined" ++ "'")
    else none)
  methodPath ++ headerDiffs

/-- `compareTrafficLogs` (traffic-capture module, lines 341-375): a
count-mismatch line when the lengths differ, then the positional
differences over the common prefix; `matches` is "no differences".  The
default ignore set is `date` and `x-request-id`. -/
def compareTrafficLogs (log1 log2 : List TrafficEntry)
    (ignoreHeaders : Option (List String)) : Bool × List String :=
  let ignore := ignoreHeaders.getD ["date", "x-request-id"]
  let countDiffs :=
    if log1.length ≠ log2.length then
      ["Request count: " ++ toString log1.length ++ " vs " ++ toString log2.length]
    else []
  let minLen := min log1.length log2.length
  let posDiffs := (List.range minLen).flatMap (fun i =>
    compareAt ignore i (log1.getD i emptyEntry) (log2.getD i emptyEntry))
  let differences := countDiffs ++ posDiffs
  (differences.length == 0, differences)

/- ### Benchmark Harness (`src/claude-direct/testing/benchmark.ts`) -/

/-- The derived statistics of `calculateStats` (lines 27-37).  The
standard deviation is the square root of `variance`; the square is kept
so that every field stays rational (and exactly computable). -/
structure BenchStats where
  mean : ℚ
  median : ℚ
  min : ℚ
  max : ℚ
  variance : ℚ
deriving DecidableEq, Repr

/-- `calculateStats` (`benchmark.ts` lines 27-37): ascending sort, mean
as sum over count, median as the element at `floor(length / 2)` of the
sorted list, min and max as its first and last element, and the
population variance (whose square root the source reports as `stdDev`). -/
def calculateStats (times : List ℚ) : BenchStats :=
  let sorted := times.mergeSort (fun a b => a ≤ b)
  let mean := times.sum / (times.length : ℚ)
  { mean := mean
    median := sorted.getD (sorted.length / 2) 0
    min := sorted.getD 0 0
    max := sorted.getD (sorted.length - 1) 0
    variance := (times.map (fun t => (t - mean) ^ 2)).sum / (times.length : ℚ) }

/-- One implementation's benchmark record (`BenchmarkResult`): its name,
the measured durations in run order, and the derived statistics. -/
structure BenchmarkResult where
  name : String
  times : List ℚ
  stats : BenchStats
deriving DecidableEq, Repr

/-- The aggregation of `runBenchmark` (`benchmark.ts` lines 49-74) over
the measured durations of each implementation (timing itself is wall
clock, external to the embedding): one record per implementation, in
order. -/
def runBenchmarkStats (impls : List (String × List ℚ)) : List BenchmarkResult :=
  impls.map (fun p => { name := p.1, times := p.2, stats := calculateStats p.2 })

/-- The comparison block of `runBenchmark` (lines 77-91): for every
implementation after the first, the percentage deviation of its mean
from the baseline's mean. -/
def benchComparisons (results : List BenchmarkResult) : List (String × ℚ) :=
  match results with
  | [] => []
  | baseline :: rest =>
      rest.map (fun r => (r.name, (r.stats.mean - baseline.stats.mean) / baseline.stats.mean * 100))

/- ### Sample inputs shared by the witnesses -/

def sampleCfg : ClaudeDirectConfig :=
  { oauthToken := "tok", model := "model-x", deviceId := "dev", sessionId := "sess" }

def sampleOpts : QueryOptions :=
  { messages := [{ role := "user", content := MContent.str "hi" }]
    systemPrompt := none, maxTokens := none, tools := [] }

def sampleOkResponse : HttpResponse :=
  { status := 200, bodyText := ""
    json := { content := [CBlock.text "hi"]
              usage := some { input_tokens := 3, output_tokens := 5 }
              model := "m", stop_reason := "end_turn" } }

def sampleErrResponse : HttpResponse :=
  { status := 403, bodyText := "forbidden"
    json := { content := [], usage := none, model := "m", stop_reason := "" } }

def sampleQueryReq : HttpRequest :=
  { method := "POST", url := API_BASE ++ "/v1/messages?beta=true"
    headers := getHeaders sampleCfg, body := queryBody sampleCfg sampleOpts }

/- ### C9 -/

/-- C9: every inference request built by the Direct Client (single-shot
or streaming path) carries the composite `anthropic-beta` header whose
comma-joined value includes the OAuth capability identifier
`oauth-2025-04-20`, the fixed `anthropic-version` header `2023-06-01`,
and the bearer `Authorization` header derived from the configured
token. -/
theorem C9_request_headers
    (cfg : ClaudeDirectConfig) (opts : QueryOptions) (res : HttpResponse)
    (events : List StreamEvent) (req : HttpRequest)
    (h : req ∈ (ClaudeDirect.query cfg opts res).1 ∨
         req ∈ (ClaudeDirect.queryStream cfg opts res events).1) :
    (∃ rest, BETA_FLAGS = "oauth-2025-04-20" ++ rest)
    ∧ ("anthropic-beta", BETA_FLAGS) ∈ req.headers
    ∧ ("anthropic-version", "2023-06-01") ∈ req.headers
    ∧ ("Authorization", "Bearer " ++ cfg.oauthToken) ∈ req.headers := by
  refine ⟨⟨",interleaved-thinking-2025-05-14,context-management-2025-06-27,prompt-caching-scope-2026-01-05", by decide⟩, ?_⟩
  rcases h with h | h
  · have hr : req.headers = getHeaders cfg := by
      unfold ClaudeDirect.query at h
      by_cases hok : responseOk res = true <;> simp [hok] at h <;>
        rw [h]
    rw [hr]
    refine ⟨?_, ?_, ?_⟩ <;> simp [getHeaders, ANTHROPIC_VERSION]
  · have hr : req.headers = setHeader (getHeaders cfg) "Accept" "text/event-stream" := by
      unfold ClaudeDirect.queryStream at h
      by_cases hok : responseOk res = true <;> simp [hok] at h <;>
        rw [h]
    rw [hr]
    have hset : setHeader (getHeaders cfg) "Accept" "text/event-stream"
        = [("Content-Type", "application/json"),
           ("Accept", "text/event-stream"),
           ("Authorization", "Bearer " ++ cfg.oauthToken),
           ("anthropic-version", ANTHROPIC_VERSION),
           ("anthropic-beta", BETA_FLAGS),
           ("anthropic-dangerous-direct-browser-access", "true"),
           ("x-app", "cli"),
           ("User-Agent",
             "claude-cli/" ++ CLI_VERSION ++ " (external, cli, agent-sdk/" ++ SDK_VERSION ++ ")")] := rfl
    rw [hset]
    refine ⟨?_, ?_, ?_⟩ <;> simp [ANTHROPIC_VERSION]

/-- C9 witness: the header facts hold of the concrete request the
single-shot query issues for the sample configuration. -/
theorem C9_witness :
    (∃ rest, BETA_FLAGS = "oauth-2025-04-20" ++ rest)
    ∧ ("anthropic-beta", BETA_FLAGS) ∈ sampleQueryReq.headers
    ∧ ("anthropic-version", "2023-06-01") ∈ sampleQueryReq.headers
    ∧ ("Authorization", "Bearer " ++ sampleCfg.oauthToken) ∈ sampleQueryReq.headers :=
  C9_request_headers sampleCfg sampleOpts sampleOkResponse [] sampleQueryReq
    (Or.inl (List.mem_singleton.mpr rfl))

/- ### C5 -/

/-- C5: a single-shot or streaming query whose inference response has a
non-success status raises the inference failure carrying the numeric
status code and the response body text, and issues exactly one inference
request whatever the response (no internal retry); a success status
raises no such error. -/
theorem C5_http_error_propagation
    (cfg : ClaudeDirectConfig) (opts : QueryOptions) (res : HttpResponse)
    (events : List StreamEvent) :
    ((ClaudeDirect.query cfg opts res).1.length = 1
      ∧ (ClaudeDirect.queryStream cfg opts res events).1.length = 1)
    ∧ (responseOk res = false →
        (ClaudeDirect.query cfg opts res).2
            = Except.error ("Inference failed: " ++ toString res.status ++ " " ++ res.bodyText)
          ∧ (ClaudeDirect.queryStream cfg opts res events).2
            = Except.error ("Inference failed: " ++ toString res.status ++ " " ++ res.bodyText))
    ∧ (responseOk res = true →
        (∃ q, (ClaudeDirect.query cfg opts res).2 = Except.ok q)
          ∧ ∃ s, (ClaudeDirect.queryStream cfg opts res events).2 = Except.ok s) := by
  unfold ClaudeDirect.query ClaudeDirect.queryStream
  by_cases hok : responseOk res = true <;>
    simp [hok, inferenceFailMsg]

/-- C5 witness: a 403 response with body `forbidden` makes both paths
raise the failure naming 403 and the body, each after exactly one
request; the 200 sample raises nothing. -/
theorem C5_witness :
    ((ClaudeDirect.query sampleCfg sampleOpts sampleErrResponse).1.length = 1
      ∧ (ClaudeDirect.queryStream sampleCfg sampleOpts sampleErrResponse []).1.length = 1)
    ∧ ((ClaudeDirect.query sampleCfg sampleOpts sampleErrResponse).2
          = Except.error ("Inference failed: " ++ toString sampleErrResponse.status
              ++ " " ++ sampleErrResponse.bodyText)
        ∧ (ClaudeDirect.queryStream sampleCfg sampleOpts sampleErrResponse []).2
          = Except.error ("Inference failed: " ++ toString sampleErrResponse.status
              ++ " " ++ sampleErrResponse.bodyText))
    ∧ ∃ q, (ClaudeDirect.query sampleCfg sampleOpts sampleOkResponse).2 = Except.ok q :=
  ⟨(C5_http_error_propagation sampleCfg sampleOpts sampleErrResponse []).1,
   (C5_http_error_propagation sampleCfg sampleOpts sampleErrResponse []).2.1 (by decide),
   ((C5_http_error_propagation sampleCfg sampleOpts sampleOkResponse []).2.2 (by decide)).1⟩

/- ### C6 -/

/-- C6: while traffic logging is enabled and the call passes the URL
filter, a throwing underlying network call still appends a finalized
entry carrying the error message and the elapsed duration, and the
original failure is re-thrown unchanged; more generally the recorder
returns every underlying outcome (success or failure) unchanged. -/
theorem C6_recorder_error_finalized
    (urlFilter : Option (String → Bool)) (method url : String)
    (requestHeaders : List (String × String)) (requestBody : Option String)
    (timestamp elapsed : Nat) (log : List TrafficEntry) :
    (∀ outcome, (loggedFetch urlFilter method url requestHeaders requestBody
        timestamp elapsed outcome log).1 = outcome)
    ∧ (∀ e, filterPasses urlFilter url = true →
        loggedFetch urlFilter method url requestHeaders requestBody timestamp elapsed
            (Except.error e) log
          = (Except.error e, log ++
              [{ timestamp := timestamp, method := method, url := url
                 requestHeaders := requestHeaders, requestBody := requestBody
                 status := none, responseHeaders := none
                 durationMs := elapsed, error := some e }])) := by
  constructor
  · intro outcome
    unfold loggedFetch
    by_cases hf : filterPasses urlFilter url = true <;>
      cases outcome <;> simp [hf]
  · intro e hf
    unfold loggedFetch
    simp [hf]

/-- C6 witness: a concrete failing call through an anthropic.com filter
is appended with its error and duration and re-thrown. -/
theorem C6_witness :
    loggedFetch (some (fun u => u = "https://api.anthropic.com/v1/messages"))
        "POST" "https://api.anthropic.com/v1/messages" [("x-app", "cli")] none 7 42
        (Except.error "socket hang up") []
      = (Except.error "socket hang up",
         [{ timestamp := 7, method := "POST", url := "https://api.anthropic.com/v1/messages"
            requestHeaders := [("x-app", "cli")], requestBody := none
            status := none, responseHeaders := none
            durationMs := 42, error := some "socket hang up" }]) :=
  (C6_recorder_error_finalized
      (some (fun u => u = "https://api.anthropic.com/v1/messages"))
      "POST" "https://api.anthropic.com/v1/messages" [("x-app", "cli")] none 7 42 []).2
    "socket hang up" (by simp [filterPasses])


/- ### C7 -/

/-- A comparison entry whose only non-ignored header is `anthropic-beta`. -/
def hdrEntry (v : String) : TrafficEntry :=
  { emptyEntry with
      method := "POST",
      url := "https://api.anthropic.com/v1/messages",
      requestHeaders := [("content-type", "application/json"), ("anthropic-beta", v)] }

/-- An entry with no request headers at all. -/
def bareEntry : TrafficEntry :=
  { emptyEntry with
      method := "POST",
      url := "https://api.anthropic.com/v1/messages" }

/-- `bareEntry` with one extra non-ignored request header. -/
def extraHeaderEntry : TrafficEntry :=
  { bareEntry with requestHeaders := [("x-extra", "1")] }

/-- C7 counterexample: the comparison walks only the first log's headers,
so a non-ignored header present only in the second log's entry has a
differing value between the two logs at position 0, yet no difference is
flagged and `matches` stays `true`.  This refutes the claimed "exactly
when" characterisation. -/
theorem C7_counterexample_asymmetric_headers :
    compareTrafficLogs [bareEntry] [extraHeaderEntry] none = (true, [])
    ∧ lookupHeader bareEntry.requestHeaders "x-extra"
        ≠ lookupHeader extraHeaderEntry.requestHeaders "x-extra"
    ∧ lowerAscii "x-extra" ∉ ["date", "x-request-id"] :=
  ⟨by decide, by decide, by decide⟩

/-- C7 (amended): `compareTrafficLogs` pairs entries by position and
flags a difference when the lengths differ, when method or URL path
differ at a position, or when a non-ignored request header of the FIRST
log's entry has a different value (or is absent) in the second log's
entry at that position; headers present only in the second log's entry
are not compared.  Two logs agreeing on length, method, path and on
every such header value match with an empty difference list, and
changing exactly one non-ignored header value of an entry yields
`matches = false` with exactly one difference naming that header and
position. -/
theorem C7_compare_traffic_logs :
    (∀ (log1 log2 : List TrafficEntry) (ignoreHeaders : Option (List String)),
      log1.length = log2.length →
      (∀ i, i < log1.length →
        (log1.getD i emptyEntry).method = (log2.getD i emptyEntry).method
        ∧ pathname (log1.getD i emptyEntry).url = pathname (log2.getD i emptyEntry).url
        ∧ ∀ kv, kv ∈ (log1.getD i emptyEntry).requestHeaders →
            (ignoreHeaders.getD ["date", "x-request-id"]).contains (lowerAscii kv.1) = false →
            lookupHeader (log2.getD i emptyEntry).requestHeaders kv.1 = some kv.2) →
      compareTrafficLogs log1 log2 ignoreHeaders = (true, []))
    ∧ compareTrafficLogs [hdrEntry "X"] [hdrEntry "Y"] none
        = (false, ["Request 0 header 'anthropic-beta': 'X' vs 'Y'"]) := by
  constructor
  · intro log1 log2 ignoreHeaders hlen hpos
    have hmin : min log1.length log2.length = log1.length := by
      rw [hlen, min_self]
    have hflat : (List.range (min log1.length log2.length)).flatMap
        (fun i => compareAt (ignoreHeaders.getD ["date", "x-request-id"]) i
          (log1.getD i emptyEntry) (log2.getD i emptyEntry)) = [] := by
      rw [List.flatMap_eq_nil_iff]
      intro i hi
      rw [List.mem_range, hmin] at hi
      obtain ⟨hm, hp, hh⟩ := hpos i hi
      unfold compareAt
      rw [if_neg (by push_neg; exact ⟨hm, hp⟩)]
      rw [List.nil_append, List.filterMap_eq_nil_iff]
      intro kv hkv
      rw [List.mem_filter] at hkv
      have hig : (ignoreHeaders.getD ["date", "x-request-id"]).contains (lowerAscii kv.1) = false := by
        have h2 := hkv.2
        simpa using h2
      rw [hh kv hkv.1 hig]
      simp
    have hdiff : ((if log1.length ≠ log2.length then
          ["Request count: " ++ toString log1.length ++ " vs " ++ toString log2.length]
        else []) ++
        (List.range (min log1.length log2.length)).flatMap
          (fun i => compareAt (ignoreHeaders.getD ["date", "x-request-id"]) i
            (log1.getD i emptyEntry) (log2.getD i emptyEntry))) = [] := by
      rw [if_neg (by omega : ¬ log1.length ≠ log2.length), hflat]
      rfl
    unfold compareTrafficLogs
    show ((((if log1.length ≠ log2.length then
          ["Request count: " ++ toString log1.length ++ " vs " ++ toString log2.length]
        else []) ++
        (List.range (min log1.length log2.length)).flatMap
          (fun i => compareAt (ignoreHeaders.getD ["date", "x-request-id"]) i
            (log1.getD i emptyEntry) (log2.getD i emptyEntry))).length == 0),
        ((if log1.length ≠ log2.length then
          ["Request count: " ++ toString log1.length ++ " vs " ++ toString log2.length]
        else []) ++
        (List.range (min log1.length log2.length)).flatMap
          (fun i => compareAt (ignoreHeaders.getD ["date", "x-request-id"]) i
            (log1.getD i emptyEntry) (log2.getD i emptyEntry)))) = (true, [])
    rw [hdiff]
    rfl
  · decide

/-- C7 witness: two identical logs (same method, path and headers)
compare as a match with no differences. -/
theorem C7_witness :
    compareTrafficLogs [hdrEntry "X"] [hdrEntry "X"] none = (true, []) :=
  (C7_compare_traffic_logs).1 [hdrEntry "X"] [hdrEntry "X"] none rfl
    (by
      intro i hi
      have hz : i = 0 := by
        simpa using hi
      subst hz
      exact ⟨rfl, rfl, by decide⟩)

/- ### C8 -/

/-- Sorting (ascending, as `sort((a, b) => a - b)`) fixes a constant list. -/
theorem mergeSort_replicate (n : Nat) (d : ℚ) :
    (List.replicate n d).mergeSort (fun a b => a ≤ b) = List.replicate n d := by
  have hperm := List.mergeSort_perm (List.replicate n d) (fun a b => a ≤ b)
  have hmem : ∀ b ∈ (List.replicate n d).mergeSort (fun a b => a ≤ b), b = d := by
    intro b hb
    exact List.eq_of_mem_replicate (hperm.mem_iff.mp hb)
  have hlen : ((List.replicate n d).mergeSort (fun a b => a ≤ b)).length = n := by
    rw [hperm.length_eq, List.length_replicate]
  rw [List.eq_replicate_of_mem hmem, hlen]

/-- Doubling every duration doubles the sum. -/
theorem sum_map_double (ts : List ℚ) : (ts.map (fun t => 2 * t)).sum = 2 * ts.sum := by
  induction ts with
  | nil => simp
  | cons a l ih => simp [ih, mul_add]

/-- Doubling every duration doubles the computed mean. -/
theorem mean_map_double (ts : List ℚ) :
    (calculateStats (ts.map (fun t => 2 * t))).mean = 2 * (calculateStats ts).mean := by
  unfold calculateStats
  simp [sum_map_double, mul_div_assoc]

/-- Mean of a constant duration list. -/
theorem mean_replicate (n : Nat) (d : ℚ) (hn : n ≠ 0) :
    (calculateStats (List.replicate n d)).mean = d := by
  unfold calculateStats
  simp [List.sum_replicate, nsmul_eq_mul]
  exact mul_div_cancel_left₀ d (by exact_mod_cast hn)

/-- Median of five equal durations. -/
theorem median_replicate5 (d : ℚ) :
    (calculateStats (List.replicate 5 d)).median = d := by
  unfold calculateStats
  simp only [mergeSort_replicate]
  simp [List.replicate]

/-- Min of five equal durations. -/
theorem min_replicate5 (d : ℚ) :
    (calculateStats (List.replicate 5 d)).min = d := by
  unfold calculateStats
  simp only [mergeSort_replicate]
  simp [List.replicate]

/-- Max of five equal durations. -/
theorem max_replicate5 (d : ℚ) :
    (calculateStats (List.replicate 5 d)).max = d := by
  unfold calculateStats
  simp only [mergeSort_replicate]
  simp [List.replicate]

/-- Variance (squared standard deviation) of five equal durations. -/
theorem variance_replicate5 (d : ℚ) :
    (calculateStats (List.replicate 5 d)).variance = 0 := by
  unfold calculateStats
  simp [List.map_replicate, List.sum_replicate, nsmul_eq_mul]
  ring_nf

/-- C8: the harness computes mean (sum over count), median (middle of the
sorted durations), min, max and the standard deviation (via `variance`,
its square); doubling every duration doubles the mean in general, and in
the fixed-duration two-implementation scenario over 5 iterations the
second implementation's mean is exactly double the baseline's and the
relative comparison reports exactly +100%. -/
theorem C8_benchmark_stats (d : ℚ) (hd : 0 < d) :
    (∀ ts : List ℚ, (calculateStats (ts.map (fun t => 2 * t))).mean = 2 * (calculateStats ts).mean)
    ∧ (calculateStats (List.replicate 5 d)).mean = d
    ∧ (calculateStats (List.replicate 5 (2 * d))).mean
        = 2 * (calculateStats (List.replicate 5 d)).mean
    ∧ (calculateStats (List.replicate 5 d)).median = d
    ∧ (calculateStats (List.replicate 5 (2 * d))).median = 2 * d
    ∧ (calculateStats (List.replicate 5 d)).min = d
    ∧ (calculateStats (List.replicate 5 d)).max = d
    ∧ (calculateStats (List.replicate 5 d)).variance = 0
    ∧ benchComparisons (runBenchmarkStats
        [("direct", List.replicate 5 d), ("sdk", List.replicate 5 (2 * d))])
      = [("sdk", 100)] := by
  have h1 := mean_replicate 5 d (by norm_num)
  have h2 := mean_replicate 5 (2 * d) (by norm_num)
  refine ⟨mean_map_double, h1, by rw [h1, h2], median_replicate5 d,
    median_replicate5 (2 * d), min_replicate5 d, max_replicate5 d,
    variance_replicate5 d, ?_⟩
  have harith : (2 * d - d) / d * 100 = (100 : ℚ) := by
    rw [two_mul, add_sub_cancel_right, div_self hd.ne.symm]
    norm_num
  simp only [benchComparisons, runBenchmarkStats, List.map_cons, List.map_nil, h1, h2, harith]

/-- C8 witness: the doubled-duration scenario at the concrete duration 2. -/
theorem C8_witness :
    (0 : ℚ) < 2
    ∧ benchComparisons (runBenchmarkStats
        [("direct", List.replicate 5 (2 : ℚ)), ("sdk", List.replicate 5 (2 * 2 : ℚ))])
      = [("sdk", 100)]
    ∧ (calculateStats (List.replicate 5 (2 : ℚ))).median = 2 := by
  refine ⟨by norm_num, ?_, ?_⟩
  · exact (C8_benchmark_stats 2 (by norm_num)).2.2.2.2.2.2.2.2
  · exact (C8_benchmark_stats 2 (by norm_num)).2.2.2.1

/- ### C1 -/

/-- A text delta leaves both token counters unchanged. -/
theorem processEvent_delta_tokens (st : StreamState) (t : Option String) :
    (processEvent st (StreamEvent.content_block_delta t)).inputTokens = st.inputTokens
    ∧ (processEvent st (StreamEvent.content_block_delta t)).outputTokens = st.outputTokens := by
  unfold processEvent
  cases t with
  | none => exact ⟨rfl, rfl⟩
  | some s => by_cases h : s = "" <;> simp [h]

/-- Folding the text deltas of any block list leaves the token counters
unchanged. -/
theorem foldl_textDeltas_tokens (bs : List CBlock) (st : StreamState) :
    ((bs.filterMap textDeltaOf).foldl processEvent st).inputTokens = st.inputTokens
    ∧ ((bs.filterMap textDeltaOf).foldl processEvent st).outputTokens = st.outputTokens := by
  induction bs generalizing st with
  | nil => exact ⟨rfl, rfl⟩
  | cons b rest ih =>
      cases b with
      | text t =>
          simp only [List.filterMap_cons, textDeltaOf, List.foldl_cons]
          obtain ⟨hi, ho⟩ := ih (processEvent st (StreamEvent.content_block_delta (some t)))
          obtain ⟨hi2, ho2⟩ := processEvent_delta_tokens st (some t)
          exact ⟨hi.trans hi2, ho.trans ho2⟩
      | toolUse id name input => simpa [List.filterMap_cons, textDeltaOf] using ih st
      | toolResult id c e => simpa [List.filterMap_cons, textDeltaOf] using ih st
      | other => simpa [List.filterMap_cons, textDeltaOf] using ih st

/-- Over the canonical event encoding of a response, the stream
accumulator ends with exactly the token counts the encoding carries
(with the JS truthiness defaulting of the source). -/
theorem foldl_eventsOf_tokens (r : ApiResponse) (st : StreamState) :
    ((eventsOf r).foldl processEvent st).inputTokens
        = jsOrNat (r.usage.map Usage.input_tokens) st.inputTokens
    ∧ ((eventsOf r).foldl processEvent st).outputTokens
        = jsOrNat (r.usage.map Usage.output_tokens) st.outputTokens := by
  unfold eventsOf
  rw [List.foldl_append]
  simp only [List.foldl_cons, List.foldl_nil]
  constructor
  · rw [show ∀ (st2 : StreamState) (sr : Option String) (ot : Option Nat),
        (processEvent st2 (StreamEvent.message_delta sr ot)).inputTokens = st2.inputTokens
        from fun _ _ _ => rfl]
    rw [(foldl_textDeltas_tokens r.content _).1]
    rfl
  · rw [show ∀ (st2 : StreamState) (sr : Option String) (ot : Option Nat),
        (processEvent st2 (StreamEvent.message_delta sr ot)).outputTokens
          = jsOrNat ot st2.outputTokens
        from fun _ _ _ => rfl]
    rw [(foldl_textDeltas_tokens r.content _).2]
    rfl

/-- A successful response whose content is two text blocks. -/
def twoBlockResponse : HttpResponse :=
  { status := 200, bodyText := ""
    json := { content := [CBlock.text "Hello", CBlock.text " world"]
              usage := some { input_tokens := 3, output_tokens := 5 }
              model := "m", stop_reason := "end_turn" } }

/-- C1 counterexample: on an upstream response whose content is the two
text blocks `Hello` and ` world`, carried identically by both paths, the
single-shot query returns only the first block's text (`Hello`) while
the streaming query aggregates every text delta (`Hello world`): the two
paths do not yield the same aggregated text. -/
theorem C1_counterexample_first_block_only :
    exceptContent (ClaudeDirect.query sampleCfg sampleOpts twoBlockResponse).2 = some "Hello"
    ∧ exceptContent (ClaudeDirect.queryStream sampleCfg sampleOpts twoBlockResponse
        (eventsOf twoBlockResponse.json)).2 = some "Hello world"
    ∧ exceptContent (ClaudeDirect.query sampleCfg sampleOpts twoBlockResponse).2
        ≠ exceptContent (ClaudeDirect.queryStream sampleCfg sampleOpts twoBlockResponse
            (eventsOf twoBlockResponse.json)).2 :=
  ⟨by decide, by decide, by decide⟩

/-- C1 (amended): on equivalent inputs and a successful upstream
response carried identically by both paths, single-shot and streaming
query always agree on the input and output token counts; they agree on
the text content whenever the response content is a single text block
(the single-shot path reads only the first content block's text, the
streaming path concatenates all text deltas). -/
theorem C1_query_stream_agreement
    (cfg : ClaudeDirectConfig) (opts : QueryOptions) (res : HttpResponse)
    (hok : responseOk res = true) :
    ∃ q s, (ClaudeDirect.query cfg opts res).2 = Except.ok q
      ∧ (ClaudeDirect.queryStream cfg opts res (eventsOf res.json)).2 = Except.ok s
      ∧ q.inputTokens = s.inputTokens
      ∧ q.outputTokens = s.outputTokens
      ∧ (∀ t, res.json.content = [CBlock.text t] → q.content = s.content) := by
  unfold ClaudeDirect.query ClaudeDirect.queryStream
  simp only [hok, if_true, reduceIte]
  refine ⟨_, _, rfl, rfl, ?_, ?_, ?_⟩
  · simp [(foldl_eventsOf_tokens res.json _).1]
  · simp [(foldl_eventsOf_tokens res.json _).2]
  · intro t hct
    simp only [hct]
    unfold eventsOf
    simp only [hct, List.filterMap_cons, List.filterMap_nil, textDeltaOf]
    by_cases h : t = "" <;>
      simp [firstBlockText, jsOrStr, processEvent, h]

/-- C1 witness: the agreement at the concrete single-text-block sample
response. -/
theorem C1_witness :
    responseOk sampleOkResponse = true
    ∧ ∃ q s, (ClaudeDirect.query sampleCfg sampleOpts sampleOkResponse).2 = Except.ok q
        ∧ (ClaudeDirect.queryStream sampleCfg sampleOpts sampleOkResponse
            (eventsOf sampleOkResponse.json)).2 = Except.ok s
        ∧ q.inputTokens = s.inputTokens
        ∧ q.outputTokens = s.outputTokens
        ∧ (∀ t, sampleOkResponse.json.content = [CBlock.text t] → q.content = s.content) :=
  ⟨by decide, C1_query_stream_agreement sampleCfg sampleOpts sampleOkResponse (by decide)⟩

/- ### Tool-loop invariants (C2, C3, C4, C10) -/

/-- Whether a message payload contains a `tool_use` block. -/
def contentHasToolUse (c : MContent) : Bool :=
  match c with
  | MContent.blocks bs => bs.any isToolUseB
  | MContent.str _ => false

/-- Whether a message payload is a non-empty list of `tool_result`
blocks. -/
def contentToolResults (c : MContent) : Bool :=
  match c with
  | MContent.blocks bs => !bs.isEmpty && bs.all isToolResultB
  | MContent.str _ => false

/-- The alternation shape of a transcript suffix: assistant entries
carrying a `tool_use` block strictly alternating with user entries
carrying only tool results. -/
def altToolTail : List Message → Bool
  | [] => true
  | a :: u :: rest =>
      a.role == "assistant" && contentHasToolUse a.content
        && u.role == "user" && contentToolResults u.content && altToolTail rest
  | _ => false

/-- Every block the tool execution loop pushes is a `tool_result`. -/
theorem execToolUse_isToolResult (h : Handlers) (id name input : String) :
    isToolResultB (execToolUse h id name input).1 = true := by
  unfold execToolUse
  cases hh : h name with
  | none => rfl
  | some f =>
      cases hf : f input with
      | ok r => simp [hf, isToolResultB]
      | error m => simp [hf, isToolResultB]

/-- The `toolResults` array holds `tool_result` blocks only. -/
theorem toolResultsOf_all (h : Handlers) (bs : List CBlock) :
    (toolResultsOf h bs).all isToolResultB = true := by
  induction bs with
  | nil => rfl
  | cons b rest ih =>
      cases b with
      | toolUse id name input =>
          simp only [toolResultsOf, List.all_cons, ih, Bool.and_true]
          exact execToolUse_isToolResult h id name input
      | text t => simpa [toolResultsOf] using ih
      | toolResult i c e => simpa [toolResultsOf] using ih
      | other => simpa [toolResultsOf] using ih

/-- A reply containing a `tool_use` block yields at least one tool
result. -/
theorem toolResultsOf_nonempty (h : Handlers) (bs : List CBlock)
    (hb : bs.any isToolUseB = true) : (toolResultsOf h bs).isEmpty = false := by
  induction bs with
  | nil => simp at hb
  | cons b rest ih =>
      cases b with
      | toolUse id name input => simp [toolResultsOf]
      | text t =>
          simp only [List.any_cons, isToolUseB, Bool.false_or] at hb
          simpa [toolResultsOf] using ih hb
      | toolResult i c e =>
          simp only [List.any_cons, isToolUseB, Bool.false_or] at hb
          simpa [toolResultsOf] using ih hb
      | other =>
          simp only [List.any_cons, isToolUseB, Bool.false_or] at hb
          simpa [toolResultsOf] using ih hb

/-- The loop only ever appends to its transcript. -/
theorem toolLoopGo_extends (q : Oracle) (h : Handlers) :
    ∀ (fuel turns : Nat) (msgs : List Message) (inT outT : Nat) (calls : List ToolCall),
    ∃ tail, (toolLoopGo q h fuel turns msgs inT outT calls).1 = msgs ++ tail := by
  intro fuel
  induction fuel with
  | zero =>
      intro turns msgs inT outT calls
      exact ⟨[], by simp [toolLoopGo]⟩
  | succ f ih =>
      intro turns msgs inT outT calls
      unfold toolLoopGo
      cases hq : q turns with
      | error e => exact ⟨[], by simp⟩
      | ok response =>
          by_cases h1 : response.stop_reason = "end_turn"
          · exact ⟨[{ role := "assistant", content := MContent.blocks response.content }],
              by simp [h1]⟩
          · by_cases h2 : response.stop_reason = "tool_use"
            · obtain ⟨tail, htail⟩ := ih (turns + 1)
                ((msgs ++ [{ role := "assistant", content := MContent.blocks response.content }])
                  ++ [{ role := "user",
                        content := MContent.blocks (toolResultsOf h response.content) }])
                (inT + (response.usage.map Usage.input_tokens).getD 0)
                (outT + (response.usage.map Usage.output_tokens).getD 0)
                (calls ++ toolCallsOf h response.content)
              refine ⟨[{ role := "assistant", content := MContent.blocks response.content },
                       { role := "user",
                         content := MContent.blocks (toolResultsOf h response.content) }] ++ tail, ?_⟩
              simp only []
              rw [if_neg h1, if_pos h2]
              rw [htail]
              simp
            · exact ⟨[{ role := "assistant", content := MContent.blocks response.content }],
                by simp [h1, h2]⟩

/-- Loop step equation: a throwing `queryRaw` aborts with the error and
an unchanged transcript. -/
theorem toolLoopGo_err (q : Oracle) (h : Handlers)
    (fuel turns : Nat) (msgs : List Message) (inT outT : Nat) (calls : List ToolCall)
    (e : String) (hq : q turns = Except.error e) :
    toolLoopGo q h (fuel + 1) turns msgs inT outT calls = (msgs, Except.error e) := by
  unfold toolLoopGo
  rw [hq]

/-- Loop step equation for an `end_turn` reply. -/
theorem toolLoopGo_end (q : Oracle) (h : Handlers)
    (fuel turns : Nat) (msgs : List Message) (inT outT : Nat) (calls : List ToolCall)
    (r : RawResponse) (hq : q turns = Except.ok r) (hr : r.stop_reason = "end_turn") :
    toolLoopGo q h (fuel + 1) turns msgs inT outT calls
      = (msgs ++ [{ role := "assistant", content := MContent.blocks r.content }],
         Except.ok
           { content := finalText r.content, turns := turns + 1
             totalInputTokens := inT + (r.usage.map Usage.input_tokens).getD 0
             totalOutputTokens := outT + (r.usage.map Usage.output_tokens).getD 0
             toolCalls := calls }) := by
  unfold toolLoopGo
  rw [hq]
  simp only []
  rw [hr, if_pos rfl]

/-- Loop step equation for a `tool_use` reply: the assistant reply and
the user tool-result message are appended and the loop continues. -/
theorem toolLoopGo_tool (q : Oracle) (h : Handlers)
    (fuel turns : Nat) (msgs : List Message) (inT outT : Nat) (calls : List ToolCall)
    (r : RawResponse) (hq : q turns = Except.ok r) (hr : r.stop_reason = "tool_use") :
    toolLoopGo q h (fuel + 1) turns msgs inT outT calls
      = toolLoopGo q h fuel (turns + 1)
          ((msgs ++ [{ role := "assistant", content := MContent.blocks r.content }])
            ++ [{ role := "user", content := MContent.blocks (toolResultsOf h r.content) }])
          (inT + (r.usage.map Usage.input_tokens).getD 0)
          (outT + (r.usage.map Usage.output_tokens).getD 0)
          (calls ++ toolCallsOf h r.content) := by
  conv_lhs => unfold toolLoopGo
  rw [hq]
  simp only []
  rw [hr, if_neg (by decide : ¬("tool_use" : String) = "end_turn"), if_pos rfl]

/-- Loop step equation for any other stop reason: warn and finish. -/
theorem toolLoopGo_other (q : Oracle) (h : Handlers)
    (fuel turns : Nat) (msgs : List Message) (inT outT : Nat) (calls : List ToolCall)
    (r : RawResponse) (hq : q turns = Except.ok r)
    (h1 : ¬ r.stop_reason = "end_turn") (h2 : ¬ r.stop_reason = "tool_use") :
    toolLoopGo q h (fuel + 1) turns msgs inT outT calls
      = (msgs ++ [{ role := "assistant", content := MContent.blocks r.content }],
         Except.ok
           { content := "", turns := turns + 1
             totalInputTokens := inT + (r.usage.map Usage.input_tokens).getD 0
             totalOutputTokens := outT + (r.usage.map Usage.output_tokens).getD 0
             toolCalls := calls }) := by
  unfold toolLoopGo
  rw [hq]
  simp only []
  rw [if_neg h1, if_neg h2]

/-- When the oracle never throws, the loop returns a result (handler
failures never escape). -/
theorem toolLoopGo_ok (q : Oracle) (h : Handlers) :
    ∀ (fuel turns : Nat) (msgs : List Message) (inT outT : Nat) (calls : List ToolCall),
    (∀ i, i < fuel → ∃ r, q (turns + i) = Except.ok r) →
    ∃ res, (toolLoopGo q h fuel turns msgs inT outT calls).2 = Except.ok res := by
  intro fuel
  induction fuel with
  | zero =>
      intro turns msgs inT outT calls hq
      exact ⟨_, rfl⟩
  | succ f ih =>
      intro turns msgs inT outT calls hq
      obtain ⟨r, hr⟩ := hq 0 (Nat.succ_pos f)
      rw [Nat.add_zero] at hr
      by_cases h1 : r.stop_reason = "end_turn"
      · rw [toolLoopGo_end q h f turns msgs inT outT calls r hr h1]
        exact ⟨_, rfl⟩
      · by_cases h2 : r.stop_reason = "tool_use"
        · rw [toolLoopGo_tool q h f turns msgs inT outT calls r hr h2]
          refine ih (turns + 1) _ _ _ _ ?_
          intro i hi
          have := hq (i + 1) (Nat.succ_lt_succ hi)
          rwa [show turns + (i + 1) = turns + 1 + i by omega] at this
        · rw [toolLoopGo_other q h f turns msgs inT outT calls r hr h1 h2]
          exact ⟨_, rfl⟩

/-- The turn counter of a returned result never exceeds the starting
count plus the remaining budget. -/
theorem toolLoopGo_turns_le (q : Oracle) (h : Handlers) :
    ∀ (fuel turns : Nat) (msgs : List Message) (inT outT : Nat) (calls : List ToolCall)
      (res : ToolLoopResult),
    (toolLoopGo q h fuel turns msgs inT outT calls).2 = Except.ok res →
    res.turns ≤ turns + fuel := by
  intro fuel
  induction fuel with
  | zero =>
      intro turns msgs inT outT calls res hres
      simp only [toolLoopGo, Except.ok.injEq] at hres
      rw [← hres]
      show turns ≤ turns + 0
      omega
  | succ f ih =>
      intro turns msgs inT outT calls res hres
      cases hq : q turns with
      | error e =>
          rw [toolLoopGo_err q h f turns msgs inT outT calls e hq] at hres
          cases hres
      | ok r =>
          by_cases h1 : r.stop_reason = "end_turn"
          · rw [toolLoopGo_end q h f turns msgs inT outT calls r hq h1] at hres
            simp only [Except.ok.injEq] at hres
            rw [← hres]
            show turns + 1 ≤ turns + (f + 1)
            omega
          · by_cases h2 : r.stop_reason = "tool_use"
            · rw [toolLoopGo_tool q h f turns msgs inT outT calls r hq h2] at hres
              have := ih (turns + 1) _ _ _ _ res hres
              omega
            · rw [toolLoopGo_other q h f turns msgs inT outT calls r hq h1 h2] at hres
              simp only [Except.ok.injEq] at hres
              rw [← hres]
              show turns + 1 ≤ turns + (f + 1)
              omega

/-- Over turns that all stop with `tool_use` (and actually carry a
`tool_use` block), the loop appends exactly two entries per turn in the
alternating shape. -/
theorem toolLoopGo_toolTurns (q : Oracle) (h : Handlers) (resp : Nat → RawResponse) :
    ∀ (fuel turns : Nat) (msgs : List Message) (inT outT : Nat) (calls : List ToolCall),
    (∀ i, i < fuel → q (turns + i) = Except.ok (resp (turns + i))
      ∧ (resp (turns + i)).stop_reason = "tool_use"
      ∧ (resp (turns + i)).content.any isToolUseB = true) →
    ∃ tail, (toolLoopGo q h fuel turns msgs inT outT calls).1 = msgs ++ tail
      ∧ tail.length = 2 * fuel
      ∧ altToolTail tail = true := by
  intro fuel
  induction fuel with
  | zero =>
      intro turns msgs inT outT calls hresp
      exact ⟨[], by simp [toolLoopGo], rfl, rfl⟩
  | succ f ih =>
      intro turns msgs inT outT calls hresp
      obtain ⟨hq, hstop, hany⟩ := hresp 0 (Nat.succ_pos f)
      rw [Nat.add_zero] at hq hstop hany
      rw [toolLoopGo_tool q h f turns msgs inT outT calls (resp turns) hq hstop]
      obtain ⟨tail, ht1, ht2, ht3⟩ := ih (turns + 1)
        ((msgs ++ [{ role := "assistant", content := MContent.blocks (resp turns).content }])
          ++ [{ role := "user",
                content := MContent.blocks (toolResultsOf h (resp turns).content) }])
        (inT + ((resp turns).usage.map Usage.input_tokens).getD 0)
        (outT + ((resp turns).usage.map Usage.output_tokens).getD 0)
        (calls ++ toolCallsOf h (resp turns).content)
        (by
          intro i hi
          have := hresp (i + 1) (Nat.succ_lt_succ hi)
          rwa [show turns + (i + 1) = turns + 1 + i by omega] at this)
      refine ⟨{ role := "assistant", content := MContent.blocks (resp turns).content }
          :: { role := "user", content := MContent.blocks (toolResultsOf h (resp turns).content) }
          :: tail, ?_, ?_, ?_⟩
      · rw [ht1]
        simp
      · simp only [List.length_cons, ht2]
        omega
      · have halt : altToolTail
            ({ role := "assistant", content := MContent.blocks (resp turns).content }
              :: { role := "user",
                   content := MContent.blocks (toolResultsOf h (resp turns).content) }
              :: tail)
            = (("assistant" == "assistant")
                && contentHasToolUse (MContent.blocks (resp turns).content)
                && ("user" == "user")
                && contentToolResults (MContent.blocks (toolResultsOf h (resp turns).content))
                && altToolTail tail) := rfl
        rw [halt, ht3]
        simp [contentHasToolUse, hany, contentToolResults,
          toolResultsOf_all h (resp turns).content,
          toolResultsOf_nonempty h (resp turns).content hany]

/-- A missing handler produces the error-flagged unknown-tool result. -/
theorem execToolUse_none (h : Handlers) (id name input : String) (hh : h name = none) :
    execToolUse h id name input
      = (CBlock.toolResult id ("Error: Unknown tool \"" ++ name ++ "\"") true,
         { name := name, input := input, result := "Error: Unknown tool \"" ++ name ++ "\"" }) := by
  unfold execToolUse
  rw [hh]

/-- A throwing handler produces the error-flagged result carrying the
thrown message. -/
theorem execToolUse_throw (h : Handlers) (id name input m : String) (f : ToolHandler)
    (hh : h name = some f) (hf : f input = Except.error m) :
    execToolUse h id name input
      = (CBlock.toolResult id ("Error: " ++ m) true,
         { name := name, input := input, result := "Error: " ++ m }) := by
  unfold execToolUse
  rw [hh]
  simp only []
  rw [hf]

/-- Every `tool_use` block of a reply contributes its result block and
its call record to the turn's outputs. -/
theorem toolUse_mem_results (h : Handlers) (id name input : String) :
    ∀ bs : List CBlock, CBlock.toolUse id name input ∈ bs →
    (execToolUse h id name input).1 ∈ toolResultsOf h bs
    ∧ (execToolUse h id name input).2 ∈ toolCallsOf h bs := by
  intro bs
  induction bs with
  | nil => intro hmem; cases hmem
  | cons b rest ih =>
      intro hmem
      rcases List.mem_cons.mp hmem with hb | hb
      · rw [← hb]
        exact ⟨List.mem_cons_self _ _, List.mem_cons_self _ _⟩
      · obtain ⟨h1, h2⟩ := ih hb
        cases b with
        | toolUse id2 n2 i2 => exact ⟨List.mem_cons_of_mem _ h1, List.mem_cons_of_mem _ h2⟩
        | text t => exact ⟨h1, h2⟩
        | toolResult a c e => exact ⟨h1, h2⟩
        | other => exact ⟨h1, h2⟩

/-- C2: the loop's transcript is append-only (the final transcript
extends the initial one); a run whose first reply ends naturally appends
exactly one entry, the assistant reply; and `k` turns that all stop with
tool use, started from a one-entry user transcript, leave exactly
`1 + 2k` entries - the user entry followed by an alternation of
assistant-with-tool-use and user-with-tool-result entries. -/
theorem C2_transcript_invariants :
    (∀ (q : Oracle) (h : Handlers) (n : Nat) (msgs : List Message),
      ∃ tail, (executeToolLoopFull q h n msgs).1 = msgs ++ tail)
    ∧ (∀ (q : Oracle) (h : Handlers) (n : Nat) (msgs : List Message) (r : RawResponse),
        q 0 = Except.ok r → r.stop_reason = "end_turn" →
        (executeToolLoopFull q h (n + 1) msgs).1
          = msgs ++ [{ role := "assistant", content := MContent.blocks r.content }])
    ∧ (∀ (q : Oracle) (h : Handlers) (k : Nat) (u : Message) (resp : Nat → RawResponse),
        (∀ i, i < k → q i = Except.ok (resp i)
          ∧ (resp i).stop_reason = "tool_use"
          ∧ (resp i).content.any isToolUseB = true) →
        ∃ tail, (executeToolLoopFull q h k [u]).1 = u :: tail
          ∧ (executeToolLoopFull q h k [u]).1.length = 1 + 2 * k
          ∧ tail.length = 2 * k
          ∧ altToolTail tail = true) := by
  refine ⟨?_, ?_, ?_⟩
  · intro q h n msgs
    exact toolLoopGo_extends q h n 0 msgs 0 0 []
  · intro q h n msgs r hq hr
    unfold executeToolLoopFull
    rw [toolLoopGo_end q h n 0 msgs 0 0 [] r hq hr]
  · intro q h k u resp hresp
    obtain ⟨tail, h1, h2, h3⟩ := toolLoopGo_toolTurns q h resp k 0 [u] 0 0 []
      (by intro i hi; simpa using hresp i hi)
    refine ⟨tail, ?_, ?_, h2, h3⟩
    · unfold executeToolLoopFull
      rw [h1]
      rfl
    · unfold executeToolLoopFull
      rw [h1]
      simp [h2]
      omega

/-- C3: a tool-use block whose handler is missing or throws never makes
the loop raise: the turn's outputs contain an error-flagged
`tool_result` for that call's identifier with an error message as
content, the call is recorded in the tool-call list, and the loop always
returns a result (continuing past the failed call) whenever the client
calls themselves succeed. -/
theorem C3_tool_errors_recoverable :
    (∀ (h : Handlers) (bs : List CBlock) (id name input : String),
      CBlock.toolUse id name input ∈ bs →
      (h name = none ∨ ∃ f m, h name = some f ∧ f input = Except.error m) →
      ∃ msg, CBlock.toolResult id msg true ∈ toolResultsOf h bs
        ∧ ({ name := name, input := input, result := msg } : ToolCall) ∈ toolCallsOf h bs)
    ∧ (∀ (q : Oracle) (h : Handlers) (n : Nat) (msgs : List Message),
        (∀ i, i < n → ∃ r, q i = Except.ok r) →
        ∃ res, executeToolLoop q h n msgs = Except.ok res) := by
  constructor
  · intro h bs id name input hmem herr
    obtain ⟨h1, h2⟩ := toolUse_mem_results h id name input bs hmem
    rcases herr with hh | ⟨f, m, hh, hf⟩
    · refine ⟨"Error: Unknown tool \"" ++ name ++ "\"", ?_, ?_⟩
      · rw [execToolUse_none h id name input hh] at h1
        exact h1
      · rw [execToolUse_none h id name input hh] at h2
        exact h2
    · refine ⟨"Error: " ++ m, ?_, ?_⟩
      · rw [execToolUse_throw h id name input m f hh hf] at h1
        exact h1
      · rw [execToolUse_throw h id name input m f hh hf] at h2
        exact h2
  · intro q h n msgs hq
    exact toolLoopGo_ok q h n 0 msgs 0 0 [] (by intro i hi; simpa using hq i hi)

/-- C4: the loop performs at most `maxTurns` turns (the returned turn
count is bounded by the budget), and with a budget of 1 and a first
reply stopping with tool use it returns normally after exactly one turn
with the tool-call list populated from that reply and empty final
content. -/
theorem C4_turn_budget :
    (∀ (q : Oracle) (h : Handlers) (n : Nat) (msgs : List Message) (res : ToolLoopResult),
      executeToolLoop q h n msgs = Except.ok res → res.turns ≤ n)
    ∧ (∀ (q : Oracle) (h : Handlers) (msgs : List Message) (r : RawResponse),
        q 0 = Except.ok r → r.stop_reason = "tool_use" →
        executeToolLoop q h 1 msgs = Except.ok
          { content := "", turns := 1
            totalInputTokens := (r.usage.map Usage.input_tokens).getD 0
            totalOutputTokens := (r.usage.map Usage.output_tokens).getD 0
            toolCalls := toolCallsOf h r.content }) := by
  constructor
  · intro q h n msgs res hres
    have := toolLoopGo_turns_le q h n 0 msgs 0 0 [] res hres
    omega
  · intro q h msgs r hq hr
    unfold executeToolLoop executeToolLoopFull
    rw [toolLoopGo_tool q h 0 0 msgs 0 0 [] r hq hr]
    simp [toolLoopGo]

/-- C10: the caller-supplied messages array is unchanged when
`executeToolLoop` returns: the loop clones the transcript into a fresh
cell at entry (line 89) and grows only that private copy. -/
theorem C10_caller_messages_unchanged
    (q : Oracle) (h : Handlers) (n : Nat) (store : List (List Message)) (ref : Nat)
    (href : ref < store.length) :
    ((executeToolLoopStore q h n store ref).1).getD ref [] = store.getD ref [] := by
  unfold executeToolLoopStore
  simp only []
  rw [List.getD_eq_getElem?_getD, List.getD_eq_getElem?_getD]
  rw [List.getElem?_set_ne (by omega : store.length ≠ ref)]
  rw [List.getElem?_append]
  rw [if_pos href]

/- ### Loop witnesses -/

def sampleUserMsg : Message := { role := "user", content := MContent.str "hi" }

def endResp : RawResponse :=
  { content := [CBlock.text "done"], usage := some { input_tokens := 1, output_tokens := 2 }
    stop_reason := "end_turn" }

def toolResp : RawResponse :=
  { content := [CBlock.toolUse "t1" "calc" "in"]
    usage := some { input_tokens := 1, output_tokens := 2 }
    stop_reason := "tool_use" }

def endOracle : Oracle := fun _ => Except.ok endResp

def toolOracle : Oracle := fun _ => Except.ok toolResp

def noHandlers : Handlers := fun _ => none

def throwHandlers : Handlers :=
  fun n => if n = "calc" then some (fun _ => Except.error "boom") else none

def endLoopRes : ToolLoopResult :=
  { content := "done", turns := 1, totalInputTokens := 1, totalOutputTokens := 2, toolCalls := [] }

/-- C2 witness: the invariants at a concrete ending run and a concrete
two-tool-turn run. -/
theorem C2_witness :
    (∃ tail, (executeToolLoopFull endOracle noHandlers 3 [sampleUserMsg]).1
        = [sampleUserMsg] ++ tail)
    ∧ (executeToolLoopFull endOracle noHandlers 3 [sampleUserMsg]).1
        = [sampleUserMsg] ++ [{ role := "assistant", content := MContent.blocks endResp.content }]
    ∧ ∃ tail, (executeToolLoopFull toolOracle noHandlers 2 [sampleUserMsg]).1
          = sampleUserMsg :: tail
        ∧ (executeToolLoopFull toolOracle noHandlers 2 [sampleUserMsg]).1.length = 1 + 2 * 2
        ∧ tail.length = 2 * 2
        ∧ altToolTail tail = true :=
  ⟨C2_transcript_invariants.1 endOracle noHandlers 3 [sampleUserMsg],
   C2_transcript_invariants.2.1 endOracle noHandlers 2 [sampleUserMsg] endResp rfl rfl,
   C2_transcript_invariants.2.2 toolOracle noHandlers 2 sampleUserMsg (fun _ => toolResp)
     (fun _ _ => ⟨rfl, rfl, rfl⟩)⟩

/-- C3 witness: a missing handler and a throwing handler at concrete
calls, and a two-turn loop over them returning normally. -/
theorem C3_witness :
    (∃ msg, CBlock.toolResult "t1" msg true
        ∈ toolResultsOf throwHandlers [CBlock.toolUse "t1" "nope" "x"]
      ∧ ({ name := "nope", input := "x", result := msg } : ToolCall)
        ∈ toolCallsOf throwHandlers [CBlock.toolUse "t1" "nope" "x"])
    ∧ (∃ msg, CBlock.toolResult "t2" msg true
        ∈ toolResultsOf throwHandlers [CBlock.toolUse "t2" "calc" "y"]
      ∧ ({ name := "calc", input := "y", result := msg } : ToolCall)
        ∈ toolCallsOf throwHandlers [CBlock.toolUse "t2" "calc" "y"])
    ∧ ∃ res, executeToolLoop toolOracle throwHandlers 2 [sampleUserMsg] = Except.ok res :=
  ⟨C3_tool_errors_recoverable.1 throwHandlers [CBlock.toolUse "t1" "nope" "x"] "t1" "nope" "x"
      (List.mem_singleton.mpr rfl) (Or.inl rfl),
   C3_tool_errors_recoverable.1 throwHandlers [CBlock.toolUse "t2" "calc" "y"] "t2" "calc" "y"
      (List.mem_singleton.mpr rfl)
      (Or.inr ⟨fun _ => Except.error "boom", "boom", rfl, rfl⟩),
   C3_tool_errors_recoverable.2 toolOracle throwHandlers 2 [sampleUserMsg]
      (fun _ _ => ⟨toolResp, rfl⟩)⟩

/-- C4 witness: the turn bound at a concrete ending run, and the
budget-1 tool-use run returning normally with one turn. -/
theorem C4_witness :
    (executeToolLoop endOracle noHandlers 3 [sampleUserMsg] = Except.ok endLoopRes
      ∧ endLoopRes.turns ≤ 3)
    ∧ executeToolLoop toolOracle noHandlers 1 [sampleUserMsg] = Except.ok
        { content := "", turns := 1
          totalInputTokens := (toolResp.usage.map Usage.input_tokens).getD 0
          totalOutputTokens := (toolResp.usage.map Usage.output_tokens).getD 0
          toolCalls := toolCallsOf noHandlers toolResp.content } :=
  ⟨⟨rfl,
    C4_turn_budget.1 endOracle noHandlers 3 [sampleUserMsg] endLoopRes rfl⟩,
   C4_turn_budget.2 toolOracle noHandlers [sampleUserMsg] toolResp rfl rfl⟩

/-- C10 witness: a concrete store with the caller's one-entry transcript
at cell 0 is untouched by a two-turn run. -/
theorem C10_witness :
    ((executeToolLoopStore toolOracle noHandlers 2 [[sampleUserMsg]] 0).1).getD 0 []
      = [[sampleUserMsg]].getD 0 [] :=
  C10_caller_messages_unchanged toolOracle noHandlers 2 [[sampleUserMsg]] 0 (by decide)
